import Mathlib

/-!
Shallow embedding of `src/cntrlF/src/taskpane/taskpane.ts`, a browser-hosted
spreadsheet add-in that receives streamed transcription text over a socket and
highlights matching cells of the active worksheet's used range.

Strings are modelled as lists of characters (`Str`), so that the JavaScript
string operations used by the source (`trim`, `toLowerCase`, `includes`,
`length`, template concatenation) become plain recursive functions.  The host
spreadsheet's used range is modelled as a rectangular grid of optional cell
values (`none` embeds a null/absent cell, which the source skips via
`cellVal != null`); per-cell fill styling is a parallel grid of optional
colors, and the whole add-in state (transcript buffer, live display, status
display, threshold, socket handle) is one record `AppState`.
-/

/-- JavaScript strings, modelled as lists of characters. -/
abbrev Str := List Char

/-- Whitespace recognised by JavaScript `String.prototype.trim` (ASCII part;
the source only ever meets ASCII whitespace). -/
def isWS (ch : Char) : Bool :=
  ch == ' ' || ch == '\t' || ch == '\n' || ch == '\r' || ch == '\x0b' || ch == '\x0c'

/-- JavaScript `s.trim()`: strip leading and trailing whitespace. -/
def trim (s : Str) : Str :=
  ((s.dropWhile isWS).reverse.dropWhile isWS).reverse

/-- JavaScript `s.toLowerCase()` (ASCII lowering, which covers every string
the source compares). -/
def lower (s : Str) : Str :=
  s.map Char.toLower

/-- Whether `p` is a leading segment of `s` (character-wise `==`). -/
def isPrefixB : Str → Str → Bool
  | [], _ => true
  | _ :: _, [] => false
  | p :: ps, c :: cs => p == c && isPrefixB ps cs

/-- JavaScript `s.includes(q)`: substring containment (the empty string is
contained in every string). -/
def containsSub (s q : Str) : Bool :=
  match s with
  | [] => q.isEmpty
  | _ :: t => isPrefixB q s || containsSub t q

/-- A present spreadsheet cell value as delivered by `used.values`: a string,
a number, or a boolean.  Numbers are modelled as integers; `String(cellVal)`
is `cellText`. -/
inductive CellVal where
  | str (s : Str)
  | num (n : Int)
  | boolean (b : Bool)
deriving DecidableEq, Repr

/-- JavaScript `String(cellVal)` for a present cell value. -/
def cellText : CellVal → Str
  | .str s => s
  | .num n => (toString n).data
  | .boolean b => (if b then "true" else "false").data

/-- The used-range value grid `vals`: row-major, `none` embeds a null/absent
cell.  The host always returns a rectangular grid, so iterating each row's
own length coincides with the source's `rowCount`/`columnCount` loop. -/
abbrev Grid := List (List (Option CellVal))

/-- The loop body's test: `cellVal != null && String(cellVal).toLowerCase().includes(query)`. -/
def cellMatches (query : Str) : Option CellVal → Bool
  | none => false
  | some v => containsSub (lower (cellText v)) query

/-- Inner loop over one row: columns left to right, recording `(r, c)` for
each matching cell; `c` is the index of the row's first remaining cell. -/
def rowHits (query : Str) (r : Nat) : List (Option CellVal) → Nat → List (Nat × Nat)
  | [], _ => []
  | cell :: rest, c =>
    (if cellMatches query cell then [(r, c)] else []) ++ rowHits query r rest (c + 1)

/-- Outer loop over the rows; `r` is the index of the first remaining row. -/
def gridHits (query : Str) : Grid → Nat → List (Nat × Nat)
  | [], _ => []
  | row :: rest, r => rowHits query r row 0 ++ gridHits query rest (r + 1)

/-- The `hits` array built by `highlightMatches`: every `(r, c)` of the used
range whose cell matches `query`, in row-major scan order. -/
def computeHits (query : Str) (vals : Grid) : List (Nat × Nat) :=
  gridHits query vals 0

/-- Cell lookup in a grid of values: `some ov` when `(r, c)` is inside the
grid (`ov = none` embedding a null cell), `none` when out of range. -/
def cellAt (vals : Grid) (r c : Nat) : Option (Option CellVal) :=
  (vals[r]?).bind fun row => row[c]?

/-- The per-cell fill styling of the used range: `none` is a cleared fill,
`some col` a fill color. -/
abbrev Fills := List (List (Option Str))

/-- Fill lookup: `some f` when `(r, c)` is inside the used range. -/
def fillAt (fills : Fills) (r c : Nat) : Option (Option Str) :=
  (fills[r]?).bind fun row => row[c]?

/-- Replace the element at index `i`, leaving the list unchanged when `i` is
out of range. -/
def setAt {α : Type} : List α → Nat → α → List α
  | [], _, _ => []
  | _ :: xs, 0, v => v :: xs
  | x :: xs, n + 1, v => x :: setAt xs n v

/-- Apply `f` to the element at index `i`, leaving the list unchanged when
`i` is out of range. -/
def modifyAt {α : Type} : List α → Nat → (α → α) → List α
  | [], _, _ => []
  | x :: xs, 0, f => f x :: xs
  | x :: xs, n + 1, f => x :: modifyAt xs n f

/-- `used.format.fill.clear()`: clear the fill of every cell of the used range. -/
def clearFills (fills : Fills) : Fills :=
  fills.map fun row => row.map fun _ => none

/-- `HIGHLIGHT_COLOR` of the source. -/
def HIGHLIGHT_COLOR : Str := "yellow".data

/-- Set one cell's fill color. -/
def setFill (fills : Fills) (r c : Nat) (v : Option Str) : Fills :=
  modifyAt fills r fun row => setAt row c v

/-- The `hits.forEach` loop: paint `HIGHLIGHT_COLOR` on every hit cell. -/
def applyHighlights (hits : List (Nat × Nat)) (fills : Fills) : Fills :=
  hits.foldl (fun f rc => setFill f rc.1 rc.2 (some HIGHLIGHT_COLOR)) fills

/-- Whether the fill grid and the value grid have the same rectangular shape
(they always do in the host, both being views of the one used range). -/
def sameShape : Fills → Grid → Bool
  | [], [] => true
  | fr :: ft, vr :: vt => fr.length == vr.length && sameShape ft vt
  | _, _ => false

/-- The whole add-in state: the worksheet's used range (values, fills,
selection), the two display regions, the transcript buffer, the auto-search
threshold, and the socket store (`sockets i = true` means socket `i` is open;
`ws` is the module-level connection handle). -/
structure AppState where
  vals : Grid
  fills : Fills
  selected : Option (Nat × Nat)
  status : Str
  live : Str
  bufferText : Str
  autoSearchThreshold : Int
  sockets : List Bool
  ws : Option Nat
deriving DecidableEq, Repr

/-- Status text of the match branch: `Found N match(es) for needle.`
(with the source's typographic quotes around the original, untrimmed needle). -/
def foundMsg (n : Nat) (needle : Str) : Str :=
  "Found ".data ++ (toString n).data ++ " match(es) for “".data ++ needle ++ "”.".data

/-- Status text of the no-match branch. -/
def noMatchesMsg (needle : Str) : Str :=
  "No matches for “".data ++ needle ++ "”.".data

/-- The `highlightMatches` routine of the source: bail out on a blank needle;
otherwise lowercase the trimmed needle, collect the hits over the used range
in row-major order, clear all old highlights, paint every hit, and if any hit
exists select the first one and report the count, else report no matches. -/
def highlightMatches (needle : Str) (st : AppState) : AppState :=
  if needle = [] ∨ trim needle = [] then st
  else
    let query := lower (trim needle)
    let hits := computeHits query st.vals
    let painted := applyHighlights hits (clearFills st.fills)
    match hits with
    | [] => { st with fills := painted, status := noMatchesMsg needle }
    | h :: _ =>
      { st with fills := painted, selected := some h,
                status := foundMsg hits.length needle }

/-- Parsed JSON values as produced by `JSON.parse` on a socket frame. -/
inductive Json where
  | null
  | jbool (b : Bool)
  | jnum (n : Int)
  | jstr (s : Str)
  | jarr (xs : List Json)
  | jobj (fields : List (Str × Json))

/-- Property lookup on a parsed JSON object (`JSON.parse` keeps the last
duplicate key, so the lookup prefers later fields). -/
def jGet (fields : List (Str × Json)) (k : Str) : Option Json :=
  match fields with
  | [] => none
  | (k0, v) :: rest =>
    match jGet rest k with
    | some v2 => some v2
    | none => if k0 == k then some v else none

/-- The handler's guard, extracted: `some s` exactly when the frame parsed
(`none` embeds a parse failure, swallowed by the `catch`) to an object whose
`type` field is the string `"partial"` and whose `text` field is a string `s`. -/
def recognizedText (frame : Option Json) : Option Str :=
  match frame with
  | some (Json.jobj fields) =>
    match jGet fields ("type".data), jGet fields ("text".data) with
    | some (Json.jstr t), some (Json.jstr s) =>
      if t == ("partial".data) then some s else none
    | _, _ => none
  | _ => none

/-- The `ws.onmessage` handler: on a recognised partial frame replace the
transcript buffer, mirror it to the live display, and when the new buffer's
length reaches `autoSearchThreshold` run `highlightMatches` on it; every
other frame (wrong shape, wrong `type`, non-string `text`, parse failure)
leaves the state untouched. -/
def onMessage (frame : Option Json) (st : AppState) : AppState :=
  match frame with
  | some (Json.jobj fields) =>
    match jGet fields ("type".data), jGet fields ("text".data) with
    | some (Json.jstr t), some (Json.jstr s) =>
      if t == ("partial".data) then
        let st1 := { st with bufferText := s, live := s }
        if st1.autoSearchThreshold ≤ (Int.ofNat s.length)
        then highlightMatches s st1
        else st1
      else st
    | _, _ => st
  | _ => st

/-- The `disconnect` handler: when a connection handle exists, close that
socket and null the handle; otherwise do nothing. -/
def disconnect (st : AppState) : AppState :=
  match st.ws with
  | some i => { st with sockets := setAt st.sockets i false, ws := none }
  | none => st

/-- The threshold input's change handler:
`autoSearchThreshold = Math.max(0, Number(th.value))`. -/
def thresholdChange (v : Int) (st : AppState) : AppState :=
  { st with autoSearchThreshold := max 0 v }

/-- A sequence of threshold-input changes, applied in order. -/
def applyThresholdChanges (vs : List Int) (st : AppState) : AppState :=
  vs.foldl (fun s v => thresholdChange v s) st

/-- Row-major (lexicographic) order on cell coordinates. -/
def rmLt (p q : Nat × Nat) : Prop :=
  p.1 < q.1 ∨ (p.1 = q.1 ∧ p.2 < q.2)

/-- Grid of the spec's worked scenario: `[["apple","banana"],["Cherry","grape"]]`. -/
def exFruitState : AppState :=
  { vals := [[some (.str "apple".data), some (.str "banana".data)],
             [some (.str "Cherry".data), some (.str "grape".data)]],
    fills := [[none, none], [none, none]],
    selected := none, status := [], live := [], bufferText := [],
    autoSearchThreshold := 6, sockets := [], ws := none }

/-- A 3×4 grid whose only cells containing `"zz"` are (0,3) and (2,0). -/
def exOrderState : AppState :=
  { vals := [[some (.str "a".data), some (.str "b".data), some (.str "c".data), some (.str "zz1".data)],
             [some (.str "a".data), some (.str "b".data), some (.str "c".data), some (.str "d".data)],
             [some (.str "zz2".data), some (.str "b".data), some (.str "c".data), some (.str "d".data)]],
    fills := [[none, none, none, none], [none, none, none, none], [none, none, none, none]],
    selected := none, status := [], live := [], bufferText := [],
    autoSearchThreshold := 6, sockets := [], ws := none }

/-- A one-cell sheet holding `"hello!"`, threshold 6, empty status. -/
def exThresholdState : AppState :=
  { vals := [[some (.str "hello!".data)]],
    fills := [[none]],
    selected := none, status := [], live := [], bufferText := [],
    autoSearchThreshold := 6, sockets := [], ws := none }

/-- The frame `JSON.parse` result for the payload text `"hello"`. -/
def frameHello : Option Json :=
  some (Json.jobj [("type".data, Json.jstr ("partial".data)),
                   ("text".data, Json.jstr ("hello".data))])

/-- The frame for the payload text `"hello!"`. -/
def frameHelloBang : Option Json :=
  some (Json.jobj [("type".data, Json.jstr ("partial".data)),
                   ("text".data, Json.jstr ("hello!".data))])

/-- The unrecognised frame of the spec's scenario: type `"status"`. -/
def frameStatusOk : Option Json :=
  some (Json.jobj [("type".data, Json.jstr ("status".data)),
                   ("text".data, Json.jstr ("ok".data))])

/-- A state holding an open socket (index 0) and its connection handle. -/
def exConnState : AppState :=
  { vals := [], fills := [], selected := none, status := [], live := [],
    bufferText := [], autoSearchThreshold := 6, sockets := [true], ws := some 0 }

/-! ### Membership characterisation of the scan loop -/

lemma mem_rowHits (q : Str) (r : Nat) :
    ∀ (row : List (Option CellVal)) (c a b : Nat),
      (a, b) ∈ rowHits q r row c ↔
        a = r ∧ ∃ j ov, row[j]? = some ov ∧ cellMatches q ov = true ∧ b = c + j := by
  intro row
  induction row with
  | nil => intro c a b; simp [rowHits]
  | cons cell rest ih =>
    intro c a b
    rw [rowHits, List.mem_append]
    constructor
    · rintro (hmem | hmem)
      · by_cases hm : cellMatches q cell
        · rw [if_pos hm] at hmem
          simp only [List.mem_singleton, Prod.mk.injEq] at hmem
          exact ⟨hmem.1, 0, cell, by simp, hm, by omega⟩
        · rw [if_neg hm] at hmem
          simp at hmem
      · obtain ⟨ha, j, ov, hj, hcm, hb⟩ := (ih (c + 1) a b).mp hmem
        exact ⟨ha, j + 1, ov, by simpa using hj, hcm, by omega⟩
    · rintro ⟨ha, j, ov, hj, hcm, hb⟩
      cases j with
      | zero =>
        left
        have hcell : cell = ov := by simpa using hj
        subst hcell
        rw [if_pos hcm]
        simp [ha, hb]
      | succ j' =>
        right
        exact (ih (c + 1) a b).mpr ⟨ha, j', ov, by simpa using hj, hcm, by omega⟩

lemma mem_gridHits (q : Str) :
    ∀ (g : Grid) (r a b : Nat),
      (a, b) ∈ gridHits q g r ↔
        ∃ i row ov, g[i]? = some row ∧ row[b]? = some ov ∧
          cellMatches q ov = true ∧ a = r + i := by
  intro g
  induction g with
  | nil => intro r a b; simp [gridHits]
  | cons row rest ih =>
    intro r a b
    rw [gridHits, List.mem_append]
    constructor
    · rintro (hmem | hmem)
      · obtain ⟨ha, j, ov, hj, hcm, hb⟩ := (mem_rowHits q r row 0 a b).mp hmem
        have hjb : j = b := by omega
        subst hjb
        exact ⟨0, row, ov, by simp, hj, hcm, by omega⟩
      · obtain ⟨i, row', ov, hi, hb', hcm, ha⟩ := (ih (r + 1) a b).mp hmem
        exact ⟨i + 1, row', ov, by simpa using hi, hb', hcm, by omega⟩
    · rintro ⟨i, row', ov, hi, hb', hcm, ha⟩
      cases i with
      | zero =>
        left
        have hrow : row = row' := by simpa using hi
        subst hrow
        exact (mem_rowHits q r row 0 a b).mpr ⟨by omega, b, ov, hb', hcm, by omega⟩
      | succ i' =>
        right
        exact (ih (r + 1) a b).mpr ⟨i', row', ov, by simpa using hi, hb', hcm, by omega⟩

lemma mem_computeHits (q : Str) (vals : Grid) (a b : Nat) :
    (a, b) ∈ computeHits q vals ↔
      ∃ ov, cellAt vals a b = some ov ∧ cellMatches q ov = true := by
  rw [computeHits, mem_gridHits]
  constructor
  · rintro ⟨i, row, ov, hi, hb, hcm, ha⟩
    have hai : a = i := by omega
    subst hai
    exact ⟨ov, by simp [cellAt, hi, hb], hcm⟩
  · rintro ⟨ov, hcell, hcm⟩
    rw [cellAt] at hcell
    obtain ⟨row, hrow, hb⟩ := Option.bind_eq_some.mp hcell
    exact ⟨a, row, ov, hrow, hb, hcm, by omega⟩

/-- C1: for every non-blank search string and every used-range grid, the hit
set computed by `highlightMatches` contains exactly the coordinates whose
cell value is present and whose textual form, lowercased, contains the
lowercased trimmed search string as a substring. -/
theorem C1_match_set (needle : Str) (vals : Grid) (r c : Nat)
    (_hne : trim needle ≠ []) :
    (r, c) ∈ computeHits (lower (trim needle)) vals ↔
      ∃ v, cellAt vals r c = some (some v) ∧
        containsSub (lower (cellText v)) (lower (trim needle)) = true := by
  rw [mem_computeHits]
  constructor
  · rintro ⟨ov, hcell, hcm⟩
    cases ov with
    | none => simp [cellMatches] at hcm
    | some v => exact ⟨v, hcell, hcm⟩
  · rintro ⟨v, hcell, hc⟩
    exact ⟨some v, hcell, hc⟩

/-- Witness for C1: the needle `"cat"` against a one-cell grid holding
`"Category"`. -/
theorem C1_match_set_witness :
    ((0, 0) ∈ computeHits (lower (trim "cat".data)) [[some (.str "Category".data)]] ↔
      ∃ v, cellAt [[some (.str "Category".data)]] 0 0 = some (some v) ∧
        containsSub (lower (cellText v)) (lower (trim "cat".data)) = true) :=
  C1_match_set ("cat".data) [[some (.str "Category".data)]] 0 0 (by decide)

/-! ### Unfolding lemmas for `highlightMatches` -/

lemma highlightMatches_blank (needle : Str) (st : AppState)
    (h : trim needle = []) : highlightMatches needle st = st := by
  rw [highlightMatches, if_pos (Or.inr h)]

lemma highlightMatches_eq (needle : Str) (st : AppState)
    (h : trim needle ≠ []) :
    highlightMatches needle st =
      { st with
        fills := applyHighlights (computeHits (lower (trim needle)) st.vals)
                   (clearFills st.fills),
        selected := Option.or (computeHits (lower (trim needle)) st.vals).head?
                      st.selected,
        status := if computeHits (lower (trim needle)) st.vals = []
                  then noMatchesMsg needle
                  else foundMsg (computeHits (lower (trim needle)) st.vals).length
                         needle } := by
  have hg : ¬(needle = [] ∨ trim needle = []) := by
    rintro (he | he)
    · exact h (by rw [he]; rfl)
    · exact h he
  simp only [highlightMatches, if_neg hg]
  cases hh : computeHits (lower (trim needle)) st.vals with
  | nil => simp [hh]
  | cons x t => simp [hh, Option.or]

/-! ### Row-major ordering of the hit list -/

lemma rowHits_pairwise (q : Str) (r : Nat) :
    ∀ (row : List (Option CellVal)) (c : Nat), (rowHits q r row c).Pairwise rmLt := by
  intro row
  induction row with
  | nil => intro c; simp [rowHits]
  | cons cell rest ih =>
    intro c
    rw [rowHits, List.pairwise_append]
    refine ⟨?_, ih (c + 1), ?_⟩
    · by_cases hm : cellMatches q cell <;> simp [hm]
    · intro x hx y hy
      obtain ⟨y1, y2⟩ := y
      have hx' : x = (r, c) := by
        by_cases hm : cellMatches q cell
        · rw [if_pos hm] at hx; simpa using hx
        · rw [if_neg hm] at hx; simp at hx
      subst hx'
      obtain ⟨hy1, j, ov, _, _, hy2⟩ := (mem_rowHits q r rest (c + 1) y1 y2).mp hy
      exact Or.inr ⟨hy1.symm, by omega⟩

lemma gridHits_pairwise (q : Str) :
    ∀ (g : Grid) (r : Nat), (gridHits q g r).Pairwise rmLt := by
  intro g
  induction g with
  | nil => intro r; simp [gridHits]
  | cons row rest ih =>
    intro r
    rw [gridHits, List.pairwise_append]
    refine ⟨rowHits_pairwise q r row 0, ih (r + 1), ?_⟩
    intro x hx y hy
    obtain ⟨x1, x2⟩ := x
    obtain ⟨y1, y2⟩ := y
    obtain ⟨hx1, -⟩ := (mem_rowHits q r row 0 x1 x2).mp hx
    obtain ⟨i, row', ov, -, -, -, hy1⟩ := (mem_gridHits q rest (r + 1) y1 y2).mp hy
    exact Or.inl (by omega)

/-- C2: the hit list is enumerated in strict row-major order, and when at
least one hit exists `highlightMatches` selects the first hit in that order;
in the 3×4 example grid, with matches at (0,3) and (2,0), the cell (0,3) is
selected. -/
theorem C2_scan_order :
    (∀ (q : Str) (vals : Grid), (computeHits q vals).Pairwise rmLt) ∧
    (∀ (needle : Str) (st : AppState), trim needle ≠ [] →
      computeHits (lower (trim needle)) st.vals ≠ [] →
      (highlightMatches needle st).selected =
        (computeHits (lower (trim needle)) st.vals).head?) ∧
    (highlightMatches ("zz".data) exOrderState).selected = some (0, 3) := by
  refine ⟨fun q vals => gridHits_pairwise q vals 0, ?_, by decide⟩
  intro needle st h1 h2
  rw [highlightMatches_eq needle st h1]
  cases hh : computeHits (lower (trim needle)) st.vals with
  | nil => exact absurd hh h2
  | cons x t => simp [hh, Option.or]

/-- Witness for C2: the selection equation instantiated on the 3×4 grid. -/
theorem C2_scan_order_witness :
    (highlightMatches ("zz".data) exOrderState).selected =
      (computeHits (lower (trim "zz".data)) exOrderState.vals).head? :=
  C2_scan_order.2.1 ("zz".data) exOrderState (by decide) (by decide)

/-! ### Fill-grid lemmas -/

lemma getElem?_isSome_iff {α : Type} (l : List α) (i : Nat) :
    (l[i]?).isSome ↔ i < l.length := by
  constructor
  · intro h
    obtain ⟨a, ha⟩ := Option.isSome_iff_exists.mp h
    exact (List.getElem?_eq_some.mp ha).1
  · intro h
    rw [List.getElem?_eq_getElem h]
    rfl

lemma getElem?_modifyAt {α : Type} :
    ∀ (l : List α) (i : Nat) (f : α → α) (j : Nat),
      (modifyAt l i f)[j]? = if j = i then (l[j]?).map f else l[j]? := by
  intro l
  induction l with
  | nil => intro i f j; simp [modifyAt]
  | cons x xs ih =>
    intro i f j
    cases i with
    | zero =>
      cases j with
      | zero => simp [modifyAt]
      | succ j' => rw [if_neg (by omega)]; simp [modifyAt]
    | succ i' =>
      cases j with
      | zero => rw [if_neg (by omega)]; simp [modifyAt]
      | succ j' =>
        simp only [modifyAt, List.getElem?_cons_succ]
        rw [ih i' f j']
        by_cases h : j' = i'
        · rw [if_pos h, if_pos (by omega)]
        · rw [if_neg h, if_neg (by omega)]

lemma getElem?_setAt {α : Type} :
    ∀ (l : List α) (i : Nat) (v : α) (j : Nat),
      (setAt l i v)[j]? = if j = i then (l[j]?).map (fun _ => v) else l[j]? := by
  intro l
  induction l with
  | nil => intro i v j; simp [setAt]
  | cons x xs ih =>
    intro i v j
    cases i with
    | zero =>
      cases j with
      | zero => simp [setAt]
      | succ j' => rw [if_neg (by omega)]; simp [setAt]
    | succ i' =>
      cases j with
      | zero => rw [if_neg (by omega)]; simp [setAt]
      | succ j' =>
        simp only [setAt, List.getElem?_cons_succ]
        rw [ih i' v j']
        by_cases h : j' = i'
        · rw [if_pos h, if_pos (by omega)]
        · rw [if_neg h, if_neg (by omega)]

lemma fillAt_setFill (f : Fills) (a b : Nat) (v : Option Str) (r c : Nat) :
    fillAt (setFill f a b v) r c =
      if r = a ∧ c = b then (fillAt f r c).map (fun _ => v) else fillAt f r c := by
  by_cases hr : r = a
  · subst hr
    rw [fillAt, setFill, getElem?_modifyAt, if_pos rfl]
    cases hrow : f[r]? with
    | none => simp [fillAt, hrow]
    | some row =>
      simp only [Option.map_some', Option.some_bind]
      rw [getElem?_setAt]
      by_cases hc : c = b
      · simp only [fillAt, hrow, Option.some_bind, if_pos hc, hc, and_self, if_true]
      · simp only [fillAt, hrow, Option.some_bind, if_neg hc, hc, and_false, if_false]
  · rw [fillAt, setFill, getElem?_modifyAt, if_neg hr, if_neg (fun h => hr h.1)]
    rfl

lemma fillAt_clearFills (f : Fills) (r c : Nat) :
    fillAt (clearFills f) r c = (fillAt f r c).map fun _ => none := by
  rw [fillAt, clearFills, List.getElem?_map]
  cases hrow : f[r]? with
  | none => simp [fillAt, hrow]
  | some row =>
    simp only [hrow, Option.map_some', Option.some_bind, List.getElem?_map, fillAt]

lemma applyHighlights_cons (hd : Nat × Nat) (tl : List (Nat × Nat)) (f : Fills) :
    applyHighlights (hd :: tl) f =
      applyHighlights tl (setFill f hd.1 hd.2 (some HIGHLIGHT_COLOR)) := rfl

lemma fillAt_applyHighlights :
    ∀ (hits : List (Nat × Nat)) (f : Fills) (r c : Nat),
      fillAt (applyHighlights hits f) r c =
        if (r, c) ∈ hits
        then (fillAt f r c).map (fun _ => some HIGHLIGHT_COLOR)
        else fillAt f r c := by
  intro hits
  induction hits with
  | nil => intro f r c; simp [applyHighlights]
  | cons hd tl ih =>
    intro f r c
    obtain ⟨a, b⟩ := hd
    rw [applyHighlights_cons, ih, fillAt_setFill]
    by_cases hmem : (r, c) ∈ tl
    · rw [if_pos hmem, if_pos (List.mem_cons_of_mem _ hmem)]
      by_cases heq : r = a ∧ c = b
      · rw [if_pos heq]
        cases fillAt f r c <;> rfl
      · rw [if_neg heq]
    · rw [if_neg hmem]
      by_cases heq : r = a ∧ c = b
      · rw [if_pos heq,
            if_pos (by simp [List.mem_cons, Prod.mk.injEq, heq.1, heq.2])]
      · have hnotmem : (r, c) ∉ (a, b) :: tl := by
          rw [List.mem_cons]
          rintro (h | h)
          · rw [Prod.mk.injEq] at h
            exact heq h
          · exact hmem h
        rw [if_neg heq, if_neg hnotmem]

lemma sameShape_isSome :
    ∀ (f : Fills) (g : Grid), sameShape f g = true →
      ∀ r c, (cellAt g r c).isSome → (fillAt f r c).isSome := by
  intro f
  induction f with
  | nil =>
    intro g hs r c hc
    cases g with
    | nil => simp [cellAt] at hc
    | cons vr vt => simp [sameShape] at hs
  | cons fr ft ih =>
    intro g hs r c hc
    cases g with
    | nil => simp [sameShape] at hs
    | cons vr vt =>
      rw [sameShape, Bool.and_eq_true, beq_iff_eq] at hs
      obtain ⟨hlen, hrest⟩ := hs
      cases r with
      | zero =>
        simp only [cellAt, List.getElem?_cons_zero, Option.some_bind] at hc
        have hc' : c < vr.length := (getElem?_isSome_iff vr c).mp hc
        simp only [fillAt, List.getElem?_cons_zero, Option.some_bind]
        exact (getElem?_isSome_iff fr c).mpr (by omega)
      | succ r' =>
        simp only [cellAt, List.getElem?_cons_succ] at hc
        simp only [fillAt, List.getElem?_cons_succ]
        exact ih vt hrest r' c hc

lemma hits_isSome (q : Str) (vals : Grid) (r c : Nat)
    (h : (r, c) ∈ computeHits q vals) : (cellAt vals r c).isSome := by
  obtain ⟨ov, hcell, -⟩ := (mem_computeHits q vals r c).mp h
  rw [hcell]
  rfl

/-- C3: for a non-blank needle, one invocation first clears every fill of the
used range and then paints exactly the hit cells with the highlight color:
each in-range cell's new fill is the highlight color at hits and empty
elsewhere, and a cell is highlighted if and only if it is a hit. -/
theorem C3_clear_then_highlight (needle : Str) (st : AppState)
    (hb : trim needle ≠ []) (hs : sameShape st.fills st.vals = true) :
    ∀ r c,
      fillAt (highlightMatches needle st).fills r c =
        (fillAt st.fills r c).map (fun _ =>
          if (r, c) ∈ computeHits (lower (trim needle)) st.vals
          then some HIGHLIGHT_COLOR else none) ∧
      (fillAt (highlightMatches needle st).fills r c = some (some HIGHLIGHT_COLOR)
        ↔ (r, c) ∈ computeHits (lower (trim needle)) st.vals) := by
  intro r c
  rw [highlightMatches_eq needle st hb]
  simp only [fillAt_applyHighlights, fillAt_clearFills]
  by_cases hm : (r, c) ∈ computeHits (lower (trim needle)) st.vals
  · rw [if_pos hm]
    have hsome : (fillAt st.fills r c).isSome :=
      sameShape_isSome st.fills st.vals hs r c
        (hits_isSome (lower (trim needle)) st.vals r c hm)
    obtain ⟨w, hw⟩ := Option.isSome_iff_exists.mp hsome
    rw [hw]
    simp [hm]
  · rw [if_neg hm]
    constructor
    · simp [hm]
    · cases fillAt st.fills r c <;> simp [hm]

/-- Witness for C3 at the fruit grid, needle `"an"`, cell (0,1). -/
theorem C3_clear_then_highlight_witness :
    fillAt (highlightMatches ("an".data) exFruitState).fills 0 1 =
      (fillAt exFruitState.fills 0 1).map (fun _ =>
        if ((0 : Nat), (1 : Nat)) ∈ computeHits (lower (trim "an".data)) exFruitState.vals
        then some HIGHLIGHT_COLOR else none) ∧
    (fillAt (highlightMatches ("an".data) exFruitState).fills 0 1 = some (some HIGHLIGHT_COLOR)
      ↔ ((0 : Nat), (1 : Nat)) ∈ computeHits (lower (trim "an".data)) exFruitState.vals) :=
  C3_clear_then_highlight ("an".data) exFruitState (by decide) (by decide) 0 1

/-! ### Blank input (C4) -/

lemma trim_eq_nil_of_ws (needle : Str) (h : ∀ ch ∈ needle, isWS ch = true) :
    trim needle = [] := by
  have h1 : needle.dropWhile isWS = [] := List.dropWhile_eq_nil_iff.mpr h
  rw [trim, h1]
  rfl

/-- C4: on an empty or all-whitespace search string, `highlightMatches`
performs no action at all: the entire state (styling, selection, status,
displays, buffer, threshold, socket) is returned unchanged. -/
theorem C4_blank_noop (needle : Str) (st : AppState)
    (h : ∀ ch ∈ needle, isWS ch = true) :
    highlightMatches needle st = st :=
  highlightMatches_blank needle st (trim_eq_nil_of_ws needle h)

/-- Witness for C4: two spaces leave the fruit state untouched. -/
theorem C4_blank_noop_witness :
    highlightMatches ("  ".data) exFruitState = exFruitState :=
  C4_blank_noop ("  ".data) exFruitState (by decide)

/-! ### Idempotence (C8) -/

lemma map_const_setAt {α β : Type} (y : β) :
    ∀ (l : List α) (i : Nat) (v : α),
      (setAt l i v).map (fun _ => y) = l.map (fun _ => y) := by
  intro l
  induction l with
  | nil => intro i v; rfl
  | cons x xs ih =>
    intro i v
    cases i with
    | zero => rfl
    | succ i' => simp only [setAt, List.map_cons, ih]

lemma map_modifyAt_congr {α β : Type} (fmap : α → β) :
    ∀ (l : List α) (i : Nat) (g : α → α), (∀ x, fmap (g x) = fmap x) →
      (modifyAt l i g).map fmap = l.map fmap := by
  intro l
  induction l with
  | nil => intro i g hg; rfl
  | cons x xs ih =>
    intro i g hg
    cases i with
    | zero => simp only [modifyAt, List.map_cons, hg]
    | succ i' => simp only [modifyAt, List.map_cons, ih i' g hg]

lemma clearFills_setFill (f : Fills) (a b : Nat) (v : Option Str) :
    clearFills (setFill f a b v) = clearFills f := by
  rw [setFill, clearFills, clearFills]
  exact map_modifyAt_congr _ f a _ (fun row => map_const_setAt none row b v)

lemma clearFills_applyHighlights :
    ∀ (hits : List (Nat × Nat)) (f : Fills),
      clearFills (applyHighlights hits f) = clearFills f := by
  intro hits
  induction hits with
  | nil => intro f; rfl
  | cons hd tl ih =>
    intro f
    rw [applyHighlights_cons, ih, clearFills_setFill]

lemma map_const_map {α β γ : Type} (l : List α) (f : α → β) (y : γ) :
    (l.map f).map (fun _ => y) = l.map (fun _ => y) := by
  rw [List.map_map]
  rfl

lemma clearFills_cons (row : List (Option Str)) (rest : Fills) :
    clearFills (row :: rest) = (row.map fun _ => none) :: clearFills rest := rfl

lemma clearFills_clearFills : ∀ f : Fills, clearFills (clearFills f) = clearFills f := by
  intro f
  induction f with
  | nil => rfl
  | cons row rest ih =>
    rw [clearFills_cons, clearFills_cons, ih, map_const_map]

lemma optOr_self_left {α : Type} (x y : Option α) :
    Option.or x (Option.or x y) = Option.or x y := by
  cases x <;> rfl

/-- C8: invoking `highlightMatches` twice in sequence with the same needle on
unchanged sheet contents is idempotent: the second call returns the state of
the first call unchanged (hence the same highlighted set, selection and
status). -/
theorem C8_idempotent (needle : Str) (st : AppState) :
    highlightMatches needle (highlightMatches needle st) =
      highlightMatches needle st := by
  by_cases hb : trim needle = []
  · rw [highlightMatches_blank needle st hb, highlightMatches_blank needle st hb]
  · obtain ⟨vals, fills, sel, stat, live, buf, th, socks, wsh⟩ := st
    rw [highlightMatches_eq needle _ hb, highlightMatches_eq needle _ hb]
    simp only [AppState.mk.injEq, clearFills_applyHighlights, clearFills_clearFills,
               optOr_self_left, and_self, true_and, and_true]

/-! ### Status reporting (C7) -/

/-- C7: for a non-blank needle the status display reports the match count and
the term when hits exist and a no-match message naming the term otherwise; on
the fruit grid, needle `"an"` yields the Found-1 status with (0,1) highlighted
and selected, and needle `"xyz"` yields the no-match status with no cell
highlighted. -/
theorem C7_status (needle : Str) (st : AppState) (hb : trim needle ≠ []) :
    ((highlightMatches needle st).status =
      if computeHits (lower (trim needle)) st.vals = []
      then noMatchesMsg needle
      else foundMsg (computeHits (lower (trim needle)) st.vals).length needle) ∧
    (highlightMatches ("an".data) exFruitState).status =
      "Found 1 match(es) for “an”.".data ∧
    (highlightMatches ("an".data) exFruitState).selected = some (0, 1) ∧
    (highlightMatches ("an".data) exFruitState).fills =
      [[none, some HIGHLIGHT_COLOR], [none, none]] ∧
    (highlightMatches ("xyz".data) exFruitState).status =
      "No matches for “xyz”.".data ∧
    (highlightMatches ("xyz".data) exFruitState).fills = [[none, none], [none, none]] := by
  refine ⟨?_, by decide, by decide, by decide, by decide, by decide⟩
  rw [highlightMatches_eq needle st hb]

/-- Witness for C7: the status equation at needle `"an"` on the fruit grid. -/
theorem C7_status_witness :
    ((highlightMatches ("an".data) exFruitState).status =
      if computeHits (lower (trim "an".data)) exFruitState.vals = []
      then noMatchesMsg ("an".data)
      else foundMsg (computeHits (lower (trim "an".data)) exFruitState.vals).length
             ("an".data)) ∧
    (highlightMatches ("an".data) exFruitState).status =
      "Found 1 match(es) for “an”.".data ∧
    (highlightMatches ("an".data) exFruitState).selected = some (0, 1) ∧
    (highlightMatches ("an".data) exFruitState).fills =
      [[none, some HIGHLIGHT_COLOR], [none, none]] ∧
    (highlightMatches ("xyz".data) exFruitState).status =
      "No matches for “xyz”.".data ∧
    (highlightMatches ("xyz".data) exFruitState).fills = [[none, none], [none, none]] :=
  C7_status ("an".data) exFruitState (by decide)

/-! ### The message handler (C5, C6) -/

lemma highlightMatches_preserves (needle : Str) (st : AppState) :
    (highlightMatches needle st).vals = st.vals ∧
    (highlightMatches needle st).live = st.live ∧
    (highlightMatches needle st).bufferText = st.bufferText ∧
    (highlightMatches needle st).autoSearchThreshold = st.autoSearchThreshold ∧
    (highlightMatches needle st).sockets = st.sockets ∧
    (highlightMatches needle st).ws = st.ws := by
  by_cases hb : trim needle = []
  · rw [highlightMatches_blank needle st hb]
    exact ⟨rfl, rfl, rfl, rfl, rfl, rfl⟩
  · rw [highlightMatches_eq needle st hb]
    exact ⟨rfl, rfl, rfl, rfl, rfl, rfl⟩

lemma onMessage_eq (frame : Option Json) (st : AppState) :
    onMessage frame st =
      match recognizedText frame with
      | none => st
      | some s =>
        if st.autoSearchThreshold ≤ (Int.ofNat s.length)
        then highlightMatches s { st with bufferText := s, live := s }
        else { st with bufferText := s, live := s } := by
  cases frame with
  | none => rfl
  | some j =>
    cases j with
    | null => rfl
    | jbool b => rfl
    | jnum n => rfl
    | jstr s0 => rfl
    | jarr xs => rfl
    | jobj fields =>
      simp only [onMessage, recognizedText]
      cases hT : jGet fields ("type".data) with
      | none => rfl
      | some vT =>
        cases vT with
        | null => rfl
        | jbool b => rfl
        | jnum n => rfl
        | jarr xs => rfl
        | jobj f2 => rfl
        | jstr t =>
          cases hX : jGet fields ("text".data) with
          | none => rfl
          | some vX =>
            cases vX with
            | null => rfl
            | jbool b => rfl
            | jnum n => rfl
            | jarr xs => rfl
            | jobj f2 => rfl
            | jstr s =>
              by_cases hp : (t == ("partial".data)) = true
              · simp only [hp, if_true]
              · simp only [Bool.not_eq_true] at hp
                simp [hp]

/-- C5: the handler consumes exactly the well-shaped partial frames: a frame
that parses to an object with `type = "partial"` and a string `text` replaces
the transcript buffer and the live display with the payload; every other
shape and every unparseable frame leaves the whole state unchanged. -/
theorem C5_message_shape (frame : Option Json) (st : AppState) :
    (recognizedText frame = none → onMessage frame st = st) ∧
    (∀ s, recognizedText frame = some s →
      (onMessage frame st).bufferText = s ∧ (onMessage frame st).live = s) := by
  constructor
  · intro h
    rw [onMessage_eq, h]
  · intro s h
    rw [onMessage_eq, h]
    dsimp only
    by_cases hth : st.autoSearchThreshold ≤ (Int.ofNat s.length)
    · rw [if_pos hth]
      exact ⟨(highlightMatches_preserves s _).2.2.1, (highlightMatches_preserves s _).2.1⟩
    · rw [if_neg hth]
      exact ⟨rfl, rfl⟩

/-- Witness for C5: the `status`-typed frame is ignored whole; the `"hello"`
partial frame lands in the buffer and the live display. -/
theorem C5_message_shape_witness :
    onMessage frameStatusOk exThresholdState = exThresholdState ∧
    (onMessage frameHello exThresholdState).bufferText = "hello".data ∧
    (onMessage frameHello exThresholdState).live = "hello".data :=
  ⟨(C5_message_shape frameStatusOk exThresholdState).1 (by decide),
   (C5_message_shape frameHello exThresholdState).2 ("hello".data) (by decide)⟩

/-- C6: after a recognised partial frame replaces the buffer, the highlight
routine runs exactly when the new buffer's length is at or above the
threshold; with threshold 6, payload `"hello"` (length 5) changes neither
sheet nor status while payload `"hello!"` (length 6) runs the search. -/
theorem C6_threshold_gate :
    (∀ (frame : Option Json) (st : AppState) (s : Str),
      recognizedText frame = some s →
      onMessage frame st =
        (if st.autoSearchThreshold ≤ (Int.ofNat s.length)
         then highlightMatches s { st with bufferText := s, live := s }
         else { st with bufferText := s, live := s })) ∧
    (onMessage frameHello exThresholdState).fills = [[none]] ∧
    (onMessage frameHello exThresholdState).status = [] ∧
    (onMessage frameHelloBang exThresholdState).status =
      "Found 1 match(es) for “hello!”.".data := by
  refine ⟨?_, by decide, by decide, by decide⟩
  intro frame st s h
  rw [onMessage_eq, h]

/-- Witness for C6: the gate equation at the `"hello!"` frame. -/
theorem C6_threshold_gate_witness :
    onMessage frameHelloBang exThresholdState =
      (if exThresholdState.autoSearchThreshold ≤ (Int.ofNat ("hello!".data).length)
       then highlightMatches ("hello!".data)
              { exThresholdState with bufferText := "hello!".data, live := "hello!".data }
       else { exThresholdState with bufferText := "hello!".data, live := "hello!".data }) :=
  C6_threshold_gate.1 frameHelloBang exThresholdState ("hello!".data) (by decide)

/-! ### Disconnect (C9) -/

/-- C9: `disconnect` closes the active socket and clears the handle when one
exists, is a complete no-op when no handle exists, and a second consecutive
call is always a no-op. -/
theorem C9_disconnect :
    (∀ st : AppState, st.ws = none → disconnect st = st) ∧
    (∀ (st : AppState) (i : Nat), st.ws = some i →
      (disconnect st).ws = none ∧
      (disconnect st).sockets = setAt st.sockets i false ∧
      (i < st.sockets.length → ((disconnect st).sockets)[i]? = some false)) ∧
    (∀ st : AppState, disconnect (disconnect st) = disconnect st) := by
  refine ⟨?_, ?_, ?_⟩
  · intro st h
    rw [disconnect, h]
  · intro st i h
    rw [disconnect, h]
    refine ⟨rfl, rfl, ?_⟩
    intro hlen
    rw [getElem?_setAt, if_pos rfl, List.getElem?_eq_getElem hlen]
    rfl
  · intro st
    cases h : st.ws with
    | none =>
      have h1 : disconnect st = st := by rw [disconnect, h]
      rw [h1]
      exact h1
    | some i =>
      have h1 : disconnect st =
          { st with sockets := setAt st.sockets i false, ws := none } := by
        rw [disconnect, h]
      rw [h1]
      rfl

/-- Witness for C9: a held open socket is closed, a cleared handle is a no-op,
and the second call changes nothing. -/
theorem C9_disconnect_witness :
    disconnect { exConnState with ws := none } = { exConnState with ws := none } ∧
    ((disconnect exConnState).sockets)[0]? = some false ∧
    disconnect (disconnect exConnState) = disconnect exConnState :=
  ⟨C9_disconnect.1 { exConnState with ws := none } rfl,
   (C9_disconnect.2.1 exConnState 0 (by decide)).2.2 (by decide),
   C9_disconnect.2.2 exConnState⟩

/-! ### Threshold clamp (C10) -/

/-- C10: the change handler stores `max 0 v`, so a threshold update never
leaves a negative value, and any sequence of updates keeps a non-negative
threshold non-negative. -/
theorem C10_threshold_nonneg :
    (∀ (v : Int) (st : AppState), 0 ≤ (thresholdChange v st).autoSearchThreshold) ∧
    (∀ (vs : List Int) (st : AppState), 0 ≤ st.autoSearchThreshold →
      0 ≤ (applyThresholdChanges vs st).autoSearchThreshold) := by
  constructor
  · intro v st
    exact le_max_left 0 v
  · intro vs
    induction vs with
    | nil => intro st h; exact h
    | cons v tl ih =>
      intro st h
      exact ih (thresholdChange v st) (le_max_left 0 v)

/-- Witness for C10: a negative then a positive update, starting at 6. -/
theorem C10_threshold_nonneg_witness :
    0 ≤ (applyThresholdChanges [-5, 3] exThresholdState).autoSearchThreshold :=
  C10_threshold_nonneg.2 [-5, 3] exThresholdState (by decide)
